import Mathlib

/-
Verification development for the OCR voter-record extraction backend
(src/backend/ocr_utils.py and src/backend/app.py).

The core engine is `extract_text_from_pdf`: it iterates over pages, OCRs
each page into raw text, and runs a line-by-line record segmenter with
regex-based field matchers.  Here the per-page segmenter and each regex
pattern are embedded as executable Lean functions over `List Char`
(strings are processed character by character, as the Python regex engine
does).  The recognition step itself is an external black box; a page's
recognition outcome is modelled as `Except String String` (error message
or raw OCR text), matching the try/except structure of the source.

Character classes: the Python patterns use `\s`, `\d`, `\w` and
`[A-Za-z0-9]`.  We model `\s` by `Char.isWhitespace`, `\d` by the ASCII
digits (Python also admits other Unicode decimal digits; the labels and
values in this domain use ASCII digits, and `int` succeeds on every
`\d` run either way), `[A-Za-z0-9]` by `Char.isAlphanum`, and `\w` by
ASCII word characters together with the Devanagari letters and digits
(Unicode word characters of categories L*/Nd in the Devanagari block;
combining vowel signs are not word characters, exactly as in Python).
-/

namespace OcrSpec

/-- Models the regex class `\s` (whitespace). -/
def wsp (c : Char) : Bool := c.isWhitespace

/-- Models the regex class `\d` (decimal digits, ASCII repertoire). -/
def dig (c : Char) : Bool := c.isDigit

/-- Models the regex class `[A-Za-z0-9]`. -/
def alnumAscii (c : Char) : Bool := c.isAlphanum

/-- Devanagari word characters: letters (Lo/Lm) and digits (Nd) of the
Devanagari block; combining signs (Mn/Mc) and punctuation are excluded,
matching Python's `\w` on this block. -/
def devWord (c : Char) : Bool :=
  let n := c.toNat
  (0x904 ≤ n && n ≤ 0x939) || n = 0x93D || n = 0x950 ||
  (0x958 ≤ n && n ≤ 0x961) || (0x966 ≤ n && n ≤ 0x96F) ||
  (0x971 ≤ n && n ≤ 0x97F)

/-- Models the regex class `\w` for the character repertoire of this
domain (ASCII word characters and Devanagari). -/
def wordChar (c : Char) : Bool := c.isAlphanum || c = '_' || devWord c

/-- Models Python `str.strip()`. -/
def trimChars (cs : List Char) : List Char :=
  ((cs.dropWhile wsp).reverse.dropWhile wsp).reverse

/-- `str.strip()` producing a `String`. -/
def strTrim (cs : List Char) : String := ⟨trimChars cs⟩

/-- One step of splitting on whitespace (used to model `str.split()`). -/
def tokensStep (c : Char) (acc : List (List Char)) : List (List Char) :=
  if wsp c then [] :: acc
  else
    match acc with
    | [] => [[c]]
    | t :: ts => (c :: t) :: ts

/-- Models Python `str.split()` with no argument: maximal non-whitespace
runs, empty pieces dropped. -/
def tokens (cs : List Char) : List (List Char) :=
  (cs.foldr tokensStep [[]]).filter (fun t => t ≠ [])

/-- Models `name_parts[-1] if name_parts else ''` applied to
`full_name.split()` (ocr_utils.py line 75). -/
def pySurname (full : String) : String :=
  match (tokens full.data).getLast? with
  | some t => ⟨t⟩
  | none => ""

/-- Numeric value of a digit run (the value `int` returns on it). -/
def digitsVal (s : List Char) : Nat :=
  s.foldl (fun n c => 10 * n + (c.toNat - 48)) 0

/-- Models Python `int(s)` on the capture shapes at issue: it succeeds
exactly on non-empty digit runs (Python `int` additionally accepts
signs and surrounding whitespace, which the age capture never produces). -/
def pyInt (s : List Char) : Option Nat :=
  if s ≠ [] ∧ s.all dig = true then some (digitsVal s) else none

/-- Match a literal pattern fragment as a prefix, returning the rest. -/
def dropLit : List Char → List Char → Option (List Char)
  | [], cs => some cs
  | _ :: _, [] => none
  | p :: ps, c :: cs => if c = p then dropLit ps cs else none

/-- Models the regex fragment `\s*:\s*`: skip maximal whitespace, require
a colon, skip maximal whitespace.  (Backtracking cannot produce any other
outcome: `\s` never matches `:`.) -/
def afterColon (cs : List Char) : Option (List Char) :=
  match cs.dropWhile wsp with
  | ':' :: rest => some (rest.dropWhile wsp)
  | _ => none

/-- Models `re.search`: try the pattern attempt at every start position,
leftmost first. -/
def scanSearch {α : Type} (f : List Char → Option α) : List Char → Option α
  | [] => f []
  | c :: rest =>
    match f (c :: rest) with
    | some v => some v
    | none => scanSearch f rest

/-- Literal label of the name pattern (ocr_utils.py line 70). -/
def nameLabel : List Char := "निर्वाचक का नाम".data

/-- Literal label of the age pattern (line 78). -/
def ageLabel : List Char := "उम्र".data

/-- Literal label of the house-number pattern (line 83). -/
def houseLabel : List Char := "मकान संख्या".data

/-- First alternative of the spouse/parent pattern (line 88). -/
def fatherLabel : List Char := "पिता का नाम".data

/-- Second alternative of the spouse/parent pattern (line 88). -/
def husbandLabel : List Char := "पति का नाम".data

/-- Literal label of the gender pattern (line 93). -/
def genderLabel : List Char := "लिंग".data

/-- First gender alternative. -/
def maleWord : List Char := "पुरुष".data

/-- Second gender alternative. -/
def femaleWord : List Char := "महिला".data

/-- Literal label of the page-scoped section pattern (line 58). -/
def sectionLabel : List Char := "अनुभाग संख्या एवं नाम".data

/-- Literal label of the page-scoped polling-station pattern (line 64). -/
def pollingLabel : List Char := "निवाचन क्षेत्र की संख्या एवं नाम".data

/-- Attempt of `निर्वाचक का नाम\s*:\s*([^\n]+)` at one start position:
label, separator, then a non-empty greedy run of non-newline characters. -/
def nameAttempt (cs : List Char) : Option (List Char) :=
  match dropLit nameLabel cs with
  | none => none
  | some r =>
    match afterColon r with
    | none => none
    | some r2 =>
      let cap := r2.takeWhile (fun c => c ≠ '\n')
      if cap = [] then none else some cap

/-- `re.search` of the name pattern on a line (line 70). -/
def matchName (line : List Char) : Option (List Char) :=
  scanSearch nameAttempt line

/-- Attempt of `उम्र\s*:\s*(\d+)` at one start position. -/
def ageAttempt (cs : List Char) : Option (List Char) :=
  match dropLit ageLabel cs with
  | none => none
  | some r =>
    match afterColon r with
    | none => none
    | some r2 =>
      if r2.takeWhile dig = [] then none else some (r2.takeWhile dig)

/-- `re.search` of the age pattern on a line (line 78). -/
def matchAge (line : List Char) : Option (List Char) :=
  scanSearch ageAttempt line

/-- Attempt of `मकान संख्या\s*:\s*(\d+)` at one start position. -/
def houseAttempt (cs : List Char) : Option (List Char) :=
  match dropLit houseLabel cs with
  | none => none
  | some r =>
    match afterColon r with
    | none => none
    | some r2 =>
      let cap := r2.takeWhile dig
      if cap = [] then none else some cap

/-- `re.search` of the house-number pattern on a line (line 83). -/
def matchHouse (line : List Char) : Option (List Char) :=
  scanSearch houseAttempt line

/-- Separator and capture shared by the two spouse/parent alternatives:
`\s*:\s*([^\n]+)` (the capture is group 2 of the pattern). -/
def spouseFin (r : List Char) : Option (List Char) :=
  match afterColon r with
  | none => none
  | some r2 =>
    let cap := r2.takeWhile (fun c => c ≠ '\n')
    if cap = [] then none else some cap

/-- Attempt of `(पिता का नाम|पति का नाम)\s*:\s*([^\n]+)` at one start
position.  The two label alternatives diverge at their second character,
so at any position at most one of them can match. -/
def spouseAttempt (cs : List Char) : Option (List Char) :=
  match dropLit fatherLabel cs with
  | some r => spouseFin r
  | none =>
    match dropLit husbandLabel cs with
    | some r => spouseFin r
    | none => none

/-- `re.search` of the spouse/parent pattern on a line (line 88). -/
def matchSpouse (line : List Char) : Option (List Char) :=
  scanSearch spouseAttempt line

/-- Attempt of `लिंग\s*:\s*(पुरुष|महिला)` at one start position; the
capture is whichever literal alternative matches. -/
def genderAttempt (cs : List Char) : Option (List Char) :=
  match dropLit genderLabel cs with
  | none => none
  | some r =>
    match afterColon r with
    | none => none
    | some r2 =>
      match dropLit maleWord r2 with
      | some _ => some maleWord
      | none =>
        match dropLit femaleWord r2 with
        | some _ => some femaleWord
        | none => none

/-- `re.search` of the gender pattern on a line (line 93). -/
def matchGender (line : List Char) : Option (List Char) :=
  scanSearch genderAttempt line

/-- Tail of the tag group after the chosen digit prefix:
`\s*\|?\s*[A-Za-z0-9]+` with regex backtracking.  The greedy `\s*` runs
are forced (whitespace never matches `|` or an alphanumeric), so the only
branch point is whether the optional `|` is taken, and when a `|` is
present the branch without it dies immediately (`|` is not alphanumeric). -/
def tagTailCons (rest : List Char) : Option (List Char) :=
  let w1 := rest.takeWhile wsp
  match rest.dropWhile wsp with
  | '|' :: r2 =>
    let w2 := r2.takeWhile wsp
    let a := (r2.dropWhile wsp).takeWhile alnumAscii
    if a = [] then none else some (w1 ++ '|' :: (w2 ++ a))
  | r1 =>
    let a := r1.takeWhile alnumAscii
    if a = [] then none else some (w1 ++ a)

/-- Greedy `\d+` backtracking inside the tag group: try the longest digit
prefix first, then give digits back one at a time (at least one digit
must remain).  `revd` is the reversed digit prefix still kept. -/
def tagKLoop : List Char → List Char → Option (List Char)
  | [], _ => none
  | c :: revd, rest =>
    match tagTailCons rest with
    | some t => some ((c :: revd).reverse ++ t)
    | none => tagKLoop revd (c :: rest)

/-- Attempt of the tag group `(\d+\s*\|?\s*[A-Za-z0-9]+)` at a start
position.  A leading `\|?\s*` before the group can only skip one optional
bar and whitespace, so the group of the leftmost match is the group at the
leftmost digit position where the group matches; scanning digit-start
positions is therefore faithful to `re.search` of the full pattern. -/
def tagAttempt (cs : List Char) : Option (List Char) :=
  let d := cs.takeWhile dig
  if d = [] then none else tagKLoop d.reverse (cs.dropWhile dig)

/-- `re.search` of `\|?\s*(\d+\s*\|?\s*[A-Za-z0-9]+)` on a line
(line 98), returning group 1. -/
def matchTag (line : List Char) : Option (List Char) :=
  scanSearch tagAttempt line

/-- Models `group.strip().replace('|', '').strip()` (line 100). -/
def cleanTag (g : List Char) : String :=
  ⟨trimChars ((trimChars g).filter (fun c => c ≠ '|'))⟩

/-- Attempt of `अनुभाग संख्या एवं नाम\s*:\s*(\d+-\w+[\w\s]+)` at one
start position.  After the digits and the dash, `\w+[\w\s]+` with both
parts greedy matches exactly the maximal run of word-or-whitespace
characters, provided the run starts with a word character and has length
at least two (else `\w+` backtracks and fails). -/
def sectionAttempt (cs : List Char) : Option (List Char) :=
  match dropLit sectionLabel cs with
  | none => none
  | some r =>
    match afterColon r with
    | none => none
    | some r2 =>
      let d := r2.takeWhile dig
      if d = [] then none
      else
        match r2.dropWhile dig with
        | '-' :: r3 =>
          let run := r3.takeWhile (fun c => wordChar c || wsp c)
          match r3 with
          | [] => none
          | c0 :: _ =>
            if wordChar c0 && decide (2 ≤ run.length) then
              some (d ++ '-' :: run)
            else none
        | _ => none

/-- Attempt of
`निवाचन क्षेत्र की संख्या एवं नाम\s*:\s*(\d+\s*-\s*[\w\s()]+)` at one
start position.  The trailing `\s*[\w\s()]+` matches exactly the maximal
run of word/whitespace/parenthesis characters after the dash (whitespace
belongs to the class, so `\s*` plus the class cover the same run), and
the match fails when that run is empty. -/
def pollingAttempt (cs : List Char) : Option (List Char) :=
  match dropLit pollingLabel cs with
  | none => none
  | some r =>
    match afterColon r with
    | none => none
    | some r2 =>
      let d := r2.takeWhile dig
      if d = [] then none
      else
        let rd := r2.dropWhile dig
        let w1 := rd.takeWhile wsp
        match rd.dropWhile wsp with
        | '-' :: r3 =>
          let run := r3.takeWhile (fun c => wordChar c || wsp c || c = '(' || c = ')')
          if run = [] then none else some (d ++ w1 ++ '-' :: run)
        | _ => none

/-- Models Python `str.split('-')` (empty pieces kept). -/
def splitOnDash : List Char → List (List Char)
  | [] => [[]]
  | c :: rest =>
    match splitOnDash rest with
    | [] => [[]]
    | l :: ls => if c = '-' then [] :: l :: ls else (c :: l) :: ls

/-- Models lines 60-62 (and identically 66-68): strip the captured group,
split on dashes, take the first piece stripped as the number and the
remaining pieces re-joined with dashes and stripped as the name. -/
def pySplitSec (g : List Char) : String × String :=
  let s := trimChars g
  let parts := splitOnDash s
  (strTrim (parts.headD []), strTrim (List.intercalate ['-'] (parts.drop 1)))

/-- The section number/name pair computed from the full page text
(a pure function of the page text, recomputed per non-blank line by the
source but always with the same outcome). -/
def sectionValsOf (txt : List Char) : Option (String × String) :=
  (scanSearch sectionAttempt txt).map pySplitSec

/-- The polling-station number/name pair computed from the full page
text. -/
def pollingValsOf (txt : List Char) : Option (String × String) :=
  (scanSearch pollingAttempt txt).map pySplitSec

/-- The working record: one field per dict key the source can set.
`none` models absence of the key. -/
structure Rec where
  name : Option String := none
  surname : Option String := none
  age : Option Nat := none
  house_number : Option String := none
  spouse_or_parent_name : Option String := none
  gender : Option String := none
  section_number : Option String := none
  section_name : Option String := none
  polling_station_number : Option String := none
  polling_station_name : Option String := none
  tag_number : Option String := none
deriving DecidableEq, Repr

/-- The empty dict `{}`. -/
def emptyRec : Rec := {}

/-- Dict emptiness (Python truthiness of `record` is its non-emptiness). -/
def isEmptyRec (r : Rec) : Bool :=
  r.name.isNone && r.surname.isNone && r.age.isNone && r.house_number.isNone &&
  r.spouse_or_parent_name.isNone && r.gender.isNone && r.section_number.isNone &&
  r.section_name.isNone && r.polling_station_number.isNone &&
  r.polling_station_name.isNone && r.tag_number.isNone

/-- Models `all(key in record for key in ['name', 'age', 'house_number'])`. -/
def hasRequired (r : Rec) : Bool :=
  r.name.isSome && r.age.isSome && r.house_number.isSome

/-- Lines 58-62: page-scoped section fields, guarded by
`'section_number' not in record`. -/
def applySection (txt : List Char) (r : Rec) : Rec :=
  match sectionValsOf txt, r.section_number with
  | some p, none => { r with section_number := some p.1, section_name := some p.2 }
  | _, _ => r

/-- Lines 64-68: page-scoped polling-station fields, guarded by
`'polling_station_number' not in record`. -/
def applyPolling (txt : List Char) (r : Rec) : Rec :=
  match pollingValsOf txt, r.polling_station_number with
  | some p, none =>
    { r with polling_station_number := some p.1, polling_station_name := some p.2 }
  | _, _ => r

/-- Lines 70-100: the single-line patterns in source order, each
`continue` modelled by the nested match (a successful pattern consumes
the line).  The tag fallback is additionally guarded by
`'tag_number' not in record`. -/
def applyLine (r : Rec) (line : List Char) : Rec :=
  match matchName line with
  | some cap =>
    let full := strTrim cap
    { r with name := some full, surname := some (pySurname full) }
  | none =>
  match matchAge line with
  | some d => { r with age := some (digitsVal d) }
  | none =>
  match matchHouse line with
  | some d => { r with house_number := some (strTrim d) }
  | none =>
  match matchSpouse line with
  | some cap => { r with spouse_or_parent_name := some (strTrim cap) }
  | none =>
  match matchGender line with
  | some g => { r with gender := some (String.mk g) }
  | none =>
  match matchTag line, r.tag_number with
  | some g, none => { r with tag_number := some (cleanTag g) }
  | _, _ => r

/-- Processing of one non-blank (already stripped) line: page-scoped
patterns first (lines 58-68), then the single-line patterns (70-100). -/
def applyPatterns (txt : List Char) (r : Rec) (line : List Char) : Rec :=
  applyLine (applyPolling txt (applySection txt r)) line

/-- Lines 50-100: one iteration of the per-line loop.  The state is the
page's emitted-record list together with the working record.  On a line
that is empty after stripping, the working record is appended and reset
only when it is non-empty and has the three required keys (lines 52-56);
otherwise the working record is kept unchanged. -/
def stepLine (txt : List Char) (st : List Rec × Rec) (rawLine : List Char) :
    List Rec × Rec :=
  if trimChars rawLine = [] then
    if !isEmptyRec st.2 && hasRequired st.2 then (st.1 ++ [st.2], emptyRec) else st
  else
    (st.1, applyPatterns txt st.2 (trimChars rawLine))

/-- Lines 102-106: the end-of-page flush; the boolean is the page
diagnostic (`true` exactly when the `No match found` warning is logged). -/
def pageFinish (st : List Rec × Rec) : List Rec × Bool :=
  if !isEmptyRec st.2 && hasRequired st.2 then (st.1 ++ [st.2], false)
  else (st.1, true)

/-- Models Python `str.split('\n')` (empty pieces kept). -/
def splitLines : List Char → List (List Char)
  | [] => [[]]
  | c :: rest =>
    match splitLines rest with
    | [] => [[]]
    | l :: ls => if c = '\n' then [] :: l :: ls else (c :: l) :: ls

/-- Lines 48-106: the whole per-page segmentation of one page's OCR
text, returning the page's emitted records in order together with the
page's no-match diagnostic flag. -/
def processPage (txt : List Char) : List Rec × Bool :=
  pageFinish ((splitLines txt).foldl (stepLine txt) ([], emptyRec))

/-- Prefix of the message wrapped around a processing failure
(ocr_utils.py line 109 / app.py line 118). -/
def pdfErrPre : String := "Error processing PDF: "

/-- The whole document pipeline (ocr_utils.py lines 32-116, identically
app.py lines 41-125): pages are processed in order; the first page whose
recognition fails aborts the document with a single wrapped error and no
records are returned at all.  Each page's recognition outcome is
modelled as `Except String String`. -/
def extract_text_from_pdf : List (Except String String) → Except String (List Rec)
  | [] => Except.ok []
  | Except.error e :: _ => Except.error (pdfErrPre ++ e)
  | Except.ok t :: rest =>
    match extract_text_from_pdf rest with
    | Except.error e2 => Except.error e2
    | Except.ok rs => Except.ok ((processPage t.data).1 ++ rs)

/-- An upload at the HTTP boundary: declared filename, declared MIME
type, size in bytes, and the document content abstracted as its per-page
recognition outcomes. -/
structure Upload where
  filename : String
  contentType : String
  byteSize : Nat
  pages : List (Except String String)
deriving Repr

/-- Filename suffix checked by the endpoint (app.py line 129). -/
def pdfSuffix : String := ".pdf"

/-- Models Python `str.endswith` on the decoded character sequences. -/
def pyEndsWith (s suffixStr : String) : Bool :=
  suffixStr.data.isSuffixOf s.data

/-- app.py lines 127-157: the `/api/extract` endpoint decision, as the
pair of HTTP status code and optional record payload.  The only input
validation is the filename-suffix check (400); a pipeline failure yields
500, an empty extraction 422, otherwise 200 with the records. -/
def extract_data (u : Upload) : Nat × Option (List Rec) :=
  if !(pyEndsWith u.filename pdfSuffix) then (400, none)
  else
    match extract_text_from_pdf u.pages with
    | Except.error _ => (500, none)
    | Except.ok [] => (422, none)
    | Except.ok rs => (200, some rs)

/-- The page-scoped fields of a record agree with the values computed
once from the full page text (all four fields, absent exactly when the
corresponding page-level pattern does not match the page text). -/
def recPageOk (txt : List Char) (r : Rec) : Prop :=
  r.section_number = (sectionValsOf txt).map Prod.fst ∧
  r.section_name = (sectionValsOf txt).map Prod.snd ∧
  r.polling_station_number = (pollingValsOf txt).map Prod.fst ∧
  r.polling_station_name = (pollingValsOf txt).map Prod.snd

/-- The spec's worked example page (spec section 8). -/
def txtExample : String :=
  "निर्वाचक का नाम : राम कुमार\nउम्र : 45\nमकान संख्या : 12\nलिंग : पुरुष\n\n"

/-- A record with the three required keys is a non-empty dict. -/
lemma hasRequired_not_empty (r : Rec) (h : hasRequired r = true) :
    isEmptyRec r = false := by
  cases r with
  | mk name surname age house spouse gender sn sm pn pm tag =>
    cases name with
    | none => simp [hasRequired] at h
    | some a => simp [isEmptyRec]

/-- The flush condition reduces to the required-keys check. -/
lemma flushCond_true (r : Rec) (h : hasRequired r = true) :
    (!isEmptyRec r && hasRequired r) = true := by
  rw [hasRequired_not_empty r h, h]
  rfl

/-- The flush condition fails when a required key is missing. -/
lemma flushCond_false (r : Rec) (h : hasRequired r = false) :
    (!isEmptyRec r && hasRequired r) = false := by
  rw [h, Bool.and_false]

/-- Every character kept by `takeWhile` satisfies the predicate. -/
lemma allTakeWhile (p : Char → Bool) : ∀ l : List Char, ((l.takeWhile p).all p) = true
  | [] => rfl
  | c :: cs => by
    cases h : p c with
    | true => simp [List.takeWhile, h, allTakeWhile p cs]
    | false => simp [List.takeWhile, h]

/-- A successful regex search comes from a successful attempt at some
start position. -/
lemma scanSearch_some {α : Type} (f : List Char → Option α) :
    ∀ (cs : List Char) (v : α), scanSearch f cs = some v → ∃ s, f s = some v
  | [], v, h => ⟨[], h⟩
  | c :: rest, v, h => by
    unfold scanSearch at h
    cases hf : f (c :: rest) with
    | some w => rw [hf] at h; exact ⟨c :: rest, by rw [hf, ← h]⟩
    | none => rw [hf] at h; exact scanSearch_some f rest v h

/-- The age capture is always a non-empty run of digits. -/
lemma ageAttempt_shape (s cap : List Char) (h : ageAttempt s = some cap) :
    cap ≠ [] ∧ cap.all dig = true := by
  unfold ageAttempt at h
  split at h
  · exact absurd h (by simp)
  · split at h
    · exact absurd h (by simp)
    · split at h
      · exact absurd h (by simp)
      · next hne =>
        cases h
        exact ⟨hne, allTakeWhile dig _⟩

/-- The section update touches only the two section fields. -/
lemma applySection_others (txt : List Char) (r : Rec) :
    (applySection txt r).name = r.name ∧ (applySection txt r).surname = r.surname ∧
    (applySection txt r).age = r.age ∧
    (applySection txt r).house_number = r.house_number ∧
    (applySection txt r).spouse_or_parent_name = r.spouse_or_parent_name ∧
    (applySection txt r).gender = r.gender ∧
    (applySection txt r).polling_station_number = r.polling_station_number ∧
    (applySection txt r).polling_station_name = r.polling_station_name ∧
    (applySection txt r).tag_number = r.tag_number := by
  unfold applySection
  split <;> simp

/-- The polling update touches only the two polling-station fields. -/
lemma applyPolling_others (txt : List Char) (r : Rec) :
    (applyPolling txt r).name = r.name ∧ (applyPolling txt r).surname = r.surname ∧
    (applyPolling txt r).age = r.age ∧
    (applyPolling txt r).house_number = r.house_number ∧
    (applyPolling txt r).spouse_or_parent_name = r.spouse_or_parent_name ∧
    (applyPolling txt r).gender = r.gender ∧
    (applyPolling txt r).section_number = r.section_number ∧
    (applyPolling txt r).section_name = r.section_name ∧
    (applyPolling txt r).tag_number = r.tag_number := by
  unfold applyPolling
  split <;> simp

/-- The single-line patterns never write the page-scoped fields. -/
lemma applyLine_pageFields (r : Rec) (line : List Char) :
    (applyLine r line).section_number = r.section_number ∧
    (applyLine r line).section_name = r.section_name ∧
    (applyLine r line).polling_station_number = r.polling_station_number ∧
    (applyLine r line).polling_station_name = r.polling_station_name := by
  unfold applyLine
  repeat' split
  all_goals simp

/-- A tag value already present survives any line (first-match-wins). -/
lemma applyLine_keepsTag (r : Rec) (line : List Char) (t : String)
    (h : r.tag_number = some t) : (applyLine r line).tag_number = some t := by
  unfold applyLine
  repeat' split
  all_goals simp_all

/-- The surname/name coupling is preserved by every line. -/
lemma applyLine_surname (r : Rec) (line : List Char)
    (h : r.surname = r.name.map pySurname) :
    (applyLine r line).surname = (applyLine r line).name.map pySurname := by
  unfold applyLine
  repeat' split
  all_goals simp_all

/-- The page-scoped-field invariant is established by every non-blank
line: an empty or already-consistent record is page-consistent after the
two guarded page-scoped updates, and the single-line patterns do not
touch these fields. -/
lemma applyPatterns_pageOk (txt : List Char) (r : Rec) (line : List Char)
    (h : r = emptyRec ∨ recPageOk txt r) :
    recPageOk txt (applyPatterns txt r line) := by
  have hsec : (applySection txt r).section_number = (sectionValsOf txt).map Prod.fst ∧
      (applySection txt r).section_name = (sectionValsOf txt).map Prod.snd := by
    unfold applySection
    cases hv : sectionValsOf txt with
    | none =>
      have h1 : r.section_number = none := by
        rcases h with h | h
        · rw [h]; rfl
        · rw [h.1, hv]; rfl
      have h2 : r.section_name = none := by
        rcases h with h | h
        · rw [h]; rfl
        · rw [h.2.1, hv]; rfl
      simp [h1, h2]
    | some p =>
      cases hsn : r.section_number with
      | none => simp
      | some s =>
        have hr : recPageOk txt r := by
          rcases h with h | h
          · rw [h] at hsn; exact absurd hsn (by simp [emptyRec])
          · exact h
        simp only
        exact ⟨by rw [hr.1, hv], by rw [hr.2.1, hv]⟩
  have hpol0 : (applySection txt r).polling_station_number = r.polling_station_number ∧
      (applySection txt r).polling_station_name = r.polling_station_name :=
    ⟨(applySection_others txt r).2.2.2.2.2.2.1,
     (applySection_others txt r).2.2.2.2.2.2.2.1⟩
  have hpol : (applyPolling txt (applySection txt r)).polling_station_number =
        (pollingValsOf txt).map Prod.fst ∧
      (applyPolling txt (applySection txt r)).polling_station_name =
        (pollingValsOf txt).map Prod.snd := by
    unfold applyPolling
    cases hv : pollingValsOf txt with
    | none =>
      have h1 : r.polling_station_number = none := by
        rcases h with h | h
        · rw [h]; rfl
        · rw [h.2.2.1, hv]; rfl
      have h2 : r.polling_station_name = none := by
        rcases h with h | h
        · rw [h]; rfl
        · rw [h.2.2.2, hv]; rfl
      simp [hpol0.1, hpol0.2, h1, h2]
    | some p =>
      cases hpn : (applySection txt r).polling_station_number with
      | none => simp
      | some s =>
        have hr : recPageOk txt r := by
          rcases h with h | h
          · rw [hpol0.1, h] at hpn; exact absurd hpn (by simp [emptyRec])
          · exact h
        simp only
        refine ⟨?_, ?_⟩
        · rw [hpol0.1, hr.2.2.1, hv]
        · rw [hpol0.2, hr.2.2.2, hv]
  have hsec2 : (applyPolling txt (applySection txt r)).section_number =
        (sectionValsOf txt).map Prod.fst ∧
      (applyPolling txt (applySection txt r)).section_name =
        (sectionValsOf txt).map Prod.snd := by
    refine ⟨?_, ?_⟩
    · rw [(applyPolling_others txt (applySection txt r)).2.2.2.2.2.2.1, hsec.1]
    · rw [(applyPolling_others txt (applySection txt r)).2.2.2.2.2.2.2.1, hsec.2]
  have hl := applyLine_pageFields (applyPolling txt (applySection txt r)) line
  exact ⟨by rw [applyPatterns, hl.1, hsec2.1],
         by rw [applyPatterns, hl.2.1, hsec2.2],
         by rw [applyPatterns, hl.2.2.1, hpol.1],
         by rw [applyPatterns, hl.2.2.2, hpol.2]⟩

/-- Fold invariant for the per-line loop: any property of the working
record that is preserved by non-blank lines and holds for the empty
record holds for the working record throughout, and every record in the
emitted list additionally passed the required-keys flush check. -/
lemma foldInv (txt : List Char) (I : Rec → Prop)
    (hstep : ∀ r line, I r → I (applyPatterns txt r line))
    (hempty : I emptyRec) :
    ∀ (ls : List (List Char)) (out : List Rec) (r : Rec),
      (∀ x ∈ out, I x ∧ hasRequired x = true) → I r →
      (∀ x ∈ (ls.foldl (stepLine txt) (out, r)).1, I x ∧ hasRequired x = true) ∧
        I (ls.foldl (stepLine txt) (out, r)).2 := by
  intro ls
  induction ls with
  | nil => intro out r hout hr; exact ⟨hout, hr⟩
  | cons l ls ih =>
    intro out r hout hr
    rw [List.foldl_cons]
    by_cases hb : trimChars l = []
    · by_cases hc : (!isEmptyRec r && hasRequired r) = true
      · have hst : stepLine txt (out, r) l = (out ++ [r], emptyRec) := by
          simp [stepLine, hb, hc]
        rw [hst]
        refine ih (out ++ [r]) emptyRec ?_ hempty
        intro x hx
        rcases List.mem_append.mp hx with hx | hx
        · exact hout x hx
        · have hc2 : hasRequired r = true := by
            rw [Bool.and_eq_true] at hc
            exact hc.2
          rw [List.mem_singleton.mp hx]
          exact ⟨hr, hc2⟩
      · have hcf : (!isEmptyRec r && hasRequired r) = false := by
          revert hc
          cases (!isEmptyRec r && hasRequired r) <;> simp
        have hst : stepLine txt (out, r) l = (out, r) := by
          simp [stepLine, hb, hcf]
        rw [hst]
        exact ih out r hout hr
    · have hst : stepLine txt (out, r) l = (out, applyPatterns txt r (trimChars l)) := by
        simp [stepLine, hb]
      rw [hst]
      exact ih out (applyPatterns txt r (trimChars l)) hout (hstep r (trimChars l) hr)

/-- Every record the page emits satisfies any invariant preserved by
non-blank lines, carries the three required keys, and is a non-empty
dict. -/
lemma processPage_mem (txt : List Char) (I : Rec → Prop)
    (hstep : ∀ r line, I r → I (applyPatterns txt r line))
    (hempty : I emptyRec) :
    ∀ x ∈ (processPage txt).1, I x ∧ hasRequired x = true ∧ isEmptyRec x = false := by
  have h := foldInv txt I hstep hempty (splitLines txt) [] emptyRec (by simp) hempty
  intro x hx
  unfold processPage pageFinish at hx
  by_cases hc :
      (!isEmptyRec ((splitLines txt).foldl (stepLine txt) ([], emptyRec)).2 &&
        hasRequired ((splitLines txt).foldl (stepLine txt) ([], emptyRec)).2) = true
  · rw [if_pos hc] at hx
    rcases List.mem_append.mp hx with hx | hx
    · obtain ⟨h1, h2⟩ := h.1 x hx
      exact ⟨h1, h2, hasRequired_not_empty x h2⟩
    · have h2 : hasRequired ((splitLines txt).foldl (stepLine txt) ([], emptyRec)).2 = true := by
        rw [Bool.and_eq_true] at hc
        exact hc.2
      rw [List.mem_singleton.mp hx]
      exact ⟨h.2, h2, hasRequired_not_empty _ h2⟩
  · rw [if_neg hc] at hx
    obtain ⟨h1, h2⟩ := h.1 x hx
    exact ⟨h1, h2, hasRequired_not_empty x h2⟩

/-- C1: for every page, the working record is appended to the page's
output exactly at flush points — a line that is empty after stripping, or
end of page — and only when `name`, `age` and `house_number` are all
present in it at that point; a record missing any of the three is not
appended at a flush point; and a valid trailing record is still appended
by the end-of-page flush. -/
theorem c1_flush_discipline (txt : List Char) (out : List Rec) (r : Rec)
    (rawLine : List Char) :
    (trimChars rawLine ≠ [] → (stepLine txt (out, r) rawLine).1 = out) ∧
    (trimChars rawLine = [] → hasRequired r = true →
      stepLine txt (out, r) rawLine = (out ++ [r], emptyRec)) ∧
    (trimChars rawLine = [] → hasRequired r = false →
      (stepLine txt (out, r) rawLine).1 = out) ∧
    (hasRequired r = true → pageFinish (out, r) = (out ++ [r], false)) ∧
    (hasRequired r = false → pageFinish (out, r) = (out, true)) := by
  refine ⟨?_, ?_, ?_, ?_, ?_⟩
  · intro hb
    simp [stepLine, hb]
  · intro hb hv
    simp [stepLine, hb, flushCond_true r hv]
  · intro hb hv
    simp [stepLine, hb, flushCond_false r hv]
  · intro hv
    simp [pageFinish, flushCond_true r hv]
  · intro hv
    simp [pageFinish, flushCond_false r hv]

/-- A concrete valid working record for exercising the flush steps. -/
def recValidW : Rec :=
  { name := some "क ख", age := some 45, house_number := some "12" }

/-- Witness for C1: a blank line flushes a concrete valid record and the
end-of-page flush appends it with no diagnostic. -/
theorem c1_witness :
    stepLine [] ([], recValidW) [] = ([recValidW], emptyRec) ∧
    pageFinish ([], recValidW) = ([recValidW], false) := by
  have h := c1_flush_discipline [] [] recValidW []
  exact ⟨h.2.1 rfl (by decide), h.2.2.2.1 (by decide)⟩

/-- C2: the spec's worked example page — name, age, house-number and
gender lines followed by a blank line — yields exactly one record with
name "राम कुमार", surname "कुमार", age 45, house number "12" and gender
"पुरुष", and no other field set.  (The second component records that the
page's trailing working record is empty, so the source also logs its
no-match page diagnostic.) -/
theorem c2_example :
    processPage txtExample.data =
      ([{ name := some "राम कुमार", surname := some "कुमार", age := some 45,
          house_number := some "12", gender := some "पुरुष" }], true) := by
  decide

/-- A concrete invalid but non-empty working record (only `age` set). -/
def recAge45 : Rec := { age := some 45 }

/-- Counterexample to C3: an empty line does not reset an invalid working
record — the record `{age: 45}` survives the blank line unchanged, and it
is not the empty record. -/
theorem c3_counterexample :
    stepLine [] ([], recAge45) [] = ([], recAge45) ∧
    recAge45 ≠ emptyRec ∧ trimChars [] = [] := by
  decide

/-- C3 amended: on an empty/whitespace-only line the working record is
reset to empty exactly when it is flushed (non-empty with all three
required fields); a working record missing a required field persists
unchanged across the blank line. -/
theorem c3_amended (txt : List Char) (out : List Rec) (r : Rec)
    (rawLine : List Char) (hb : trimChars rawLine = []) :
    (hasRequired r = true → stepLine txt (out, r) rawLine = (out ++ [r], emptyRec)) ∧
    (hasRequired r = false → stepLine txt (out, r) rawLine = (out, r)) := by
  refine ⟨?_, ?_⟩
  · intro hv
    simp [stepLine, hb, flushCond_true r hv]
  · intro hv
    simp [stepLine, hb, flushCond_false r hv]

/-- A concrete invalid record for the C3 witness (only `gender` set). -/
def recGenderOnly : Rec := { gender := some "पुरुष" }

/-- Witness for the amended C3: a valid record is flushed and reset by a
blank line, while an invalid non-empty record survives it unchanged. -/
theorem c3_witness :
    stepLine [] ([], { name := some "अ", age := some 3, house_number := some "9" })
        [] = ([{ name := some "अ", age := some 3, house_number := some "9" }],
          emptyRec) ∧
    stepLine [] ([], recGenderOnly) [] = ([], recGenderOnly) := by
  have h1 := c3_amended [] []
      { name := some "अ", age := some 3, house_number := some "9" } [] rfl
  have h2 := c3_amended [] [] recGenderOnly [] rfl
  exact ⟨h1.1 (by decide), h2.2 (by decide)⟩

/-- A page whose first block has only age and house number and whose
second block has only a name. -/
def txtCarry : String := "उम्र : 45\nमकान संख्या : 12\n\nनिर्वाचक का नाम : क ख\n\n"

/-- Counterexample to C4: every block of `txtCarry` is missing required
fields (the first has no name, the second no age and no house number) —
each block alone emits nothing — yet the full page emits a record at the
second block's flush point, because the invalid working record of the
first block is carried (not reset) across the blank line and completed by
the second block. -/
theorem c4_counterexample :
    processPage txtCarry.data =
      ([{ name := some "क ख", surname := some "ख", age := some 45,
          house_number := some "12" }], true) ∧
    processPage "उम्र : 45\nमकान संख्या : 12\n".data = ([], true) ∧
    processPage "निर्वाचक का नाम : क ख\n".data = ([], true) := by
  decide

/-- C4 amended: no record is emitted at a flush point where the working
record (which may carry fields accumulated since the last successful
flush, across blank lines) is missing one of the required fields; every
emitted record carries all three required fields; and a page that yields
zero valid records produces the no-match page diagnostic. -/
theorem c4_amended (txt : List Char) (out : List Rec) (r : Rec)
    (rawLine : List Char) :
    (trimChars rawLine = [] → hasRequired r = false →
      (stepLine txt (out, r) rawLine).1 = out) ∧
    (∀ x ∈ (processPage txt).1, hasRequired x = true) ∧
    ((processPage txt).1 = [] → (processPage txt).2 = true) := by
  refine ⟨?_, ?_, ?_⟩
  · intro hb hv
    simp [stepLine, hb, flushCond_false r hv]
  · intro x hx
    exact (processPage_mem txt (fun _ => True) (fun _ _ _ => trivial) trivial x hx).2.1
  · intro hone
    unfold processPage pageFinish at hone ⊢
    by_cases hc :
        (!isEmptyRec ((splitLines txt).foldl (stepLine txt) ([], emptyRec)).2 &&
          hasRequired ((splitLines txt).foldl (stepLine txt) ([], emptyRec)).2) = true
    · rw [if_pos hc] at hone
      exact absurd hone (by simp)
    · rw [if_neg hc]

/-- Witness for the amended C4: a blank line does not emit the invalid
record `{age: 45}`, and the all-noise page "x" emits nothing and raises
the no-match diagnostic. -/
theorem c4_witness :
    (stepLine [] ([], recAge45) []).1 = [] ∧ (processPage "x".data).2 = true := by
  have h1 := (c4_amended [] [] recAge45 []).1 rfl (by decide)
  have h2 := (c4_amended "x".data [] emptyRec []).2.2 (by decide)
  exact ⟨h1, h2⟩

/-- A page whose single record has a one-token name. -/
def txtSingleName : String := "निर्वाचक का नाम : राम\nउम्र : 45\nमकान संख्या : 12"

/-- Counterexample to C5: for a single-token name the emitted surname is
the whole name, not the empty string — the record extracted from
`txtSingleName` has name "राम" (one whitespace-separated token) and
surname "राम" ≠ "". -/
theorem c5_counterexample :
    processPage txtSingleName.data =
      ([{ name := some "राम", surname := some "राम", age := some 45,
          house_number := some "12" }], false) ∧
    (tokens "राम".data).length = 1 ∧ some "राम" ≠ some "" := by
  decide

/-- C5 amended: for every emitted record the surname equals the last
whitespace-separated token of the name (the empty string only when the
name has no tokens; for a single-token name the surname is the name
itself), and the name is always present. -/
theorem c5_amended (txt : List Char) (r : Rec) (h : r ∈ (processPage txt).1) :
    r.name.isSome = true ∧ r.surname = r.name.map pySurname := by
  have hstep : ∀ (s : Rec) (line : List Char), s.surname = s.name.map pySurname →
      (applyPatterns txt s line).surname = (applyPatterns txt s line).name.map pySurname := by
    intro s line hs
    unfold applyPatterns
    refine applyLine_surname _ line ?_
    rw [(applyPolling_others txt (applySection txt s)).1,
        (applyPolling_others txt (applySection txt s)).2.1,
        (applySection_others txt s).1, (applySection_others txt s).2.1]
    exact hs
  obtain ⟨h1, h2, _⟩ := processPage_mem txt
    (fun s => s.surname = s.name.map pySurname) hstep rfl r h
  refine ⟨?_, h1⟩
  rw [hasRequired, Bool.and_eq_true, Bool.and_eq_true] at h2
  exact h2.1.1

/-- A simple valid page for the C5 witness. -/
def txtTwoTokens : String := "निर्वाचक का नाम : अ ब\nउम्र : 20\nमकान संख्या : 3\n\n"

/-- The record `txtTwoTokens` emits. -/
def recTwoTokens : Rec :=
  { name := some "अ ब", surname := some "ब", age := some 20,
    house_number := some "3" }

/-- Witness for the amended C5: the record emitted from `txtTwoTokens`
has surname "ब", the last token of its name "अ ब". -/
theorem c5_witness :
    recTwoTokens ∈ (processPage txtTwoTokens.data).1 ∧
    recTwoTokens.surname = recTwoTokens.name.map pySurname := by
  have hm : recTwoTokens ∈ (processPage txtTwoTokens.data).1 := by decide
  exact ⟨hm, (c5_amended txtTwoTokens.data _ hm).2⟩

/-- C6: every record a page emits carries page-scoped fields equal to
the values computed once from the full page text (present exactly when
the corresponding page-level pattern matches anywhere in the page text),
and consequently any two records emitted from the same page carry
identical section and polling-station fields. -/
theorem c6_page_scoped (txt : List Char) (r : Rec)
    (h : r ∈ (processPage txt).1) :
    recPageOk txt r ∧
    ∀ r2 ∈ (processPage txt).1,
      r.section_number = r2.section_number ∧ r.section_name = r2.section_name ∧
      r.polling_station_number = r2.polling_station_number ∧
      r.polling_station_name = r2.polling_station_name := by
  have key : ∀ x ∈ (processPage txt).1, recPageOk txt x := by
    intro x hx
    obtain ⟨h1, -, h3⟩ := processPage_mem txt
      (fun s => s = emptyRec ∨ recPageOk txt s)
      (fun s line hs => Or.inr (applyPatterns_pageOk txt s line hs))
      (Or.inl rfl) x hx
    rcases h1 with h1 | h1
    · rw [h1] at h3
      exact absurd h3 (by decide)
    · exact h1
  have hr := key r h
  refine ⟨hr, ?_⟩
  intro r2 h2
  have hr2 := key r2 h2
  exact ⟨by rw [hr.1, hr2.1], by rw [hr.2.1, hr2.2.1],
         by rw [hr.2.2.1, hr2.2.2.1], by rw [hr.2.2.2, hr2.2.2.2]⟩

/-- A page carrying a section header and one valid record. -/
def txtSectionPage : String :=
  "अनुभाग संख्या एवं नाम : 1-कमल नगर\nनिर्वाचक का नाम : क ख\nउम्र : 30\nमकान संख्या : 7"

/-- The record `txtSectionPage` emits (the section-name run of the
pattern crosses the newline and stops at the first combining vowel sign,
which is not a word character, exactly as Python's `\w` does). -/
def recSectionPage : Rec :=
  { name := some "क ख", surname := some "ख", age := some 30,
    house_number := some "7", section_number := some "1",
    section_name := some "कमल नगर\nन" }

/-- Witness for C6: the record emitted from `txtSectionPage` carries the
page-level section values. -/
theorem c6_witness :
    recSectionPage ∈ (processPage txtSectionPage.data).1 ∧
    recPageOk txtSectionPage.data recSectionPage := by
  have hm : recSectionPage ∈ (processPage txtSectionPage.data).1 := by decide
  exact ⟨hm, (c6_page_scoped txtSectionPage.data recSectionPage hm).1⟩

/-- The document pipeline aborts at the first failing page: with every
earlier page succeeding, the result is the single wrapped error of the
failing page. -/
lemma extract_abort (e : String) (rest : List (Except String String)) :
    ∀ (pre : List (Except String String)), (∀ p ∈ pre, ∃ t, p = Except.ok t) →
      extract_text_from_pdf (pre ++ Except.error e :: rest) =
        Except.error (pdfErrPre ++ e)
  | [], _ => rfl
  | p :: ps, h => by
    obtain ⟨t, rfl⟩ := h p (List.mem_cons_self p ps)
    have ih := extract_abort e rest ps (fun q hq => h q (List.mem_cons_of_mem _ hq))
    rw [List.cons_append]
    simp only [extract_text_from_pdf]
    rw [ih]

/-- C7: if any page's recognition fails, the whole document's extraction
aborts with a single processing-failure error carrying the underlying
cause, and no records are returned at all — not even from pages processed
before the failing one; at the HTTP boundary the same document answers
500 with no payload. -/
theorem c7_abort (pre : List (Except String String)) (e : String)
    (rest : List (Except String String))
    (h : ∀ p ∈ pre, ∃ t, p = Except.ok t) :
    extract_text_from_pdf (pre ++ Except.error e :: rest) =
      Except.error (pdfErrPre ++ e) ∧
    ∀ (fn ct : String) (sz : Nat), pyEndsWith fn pdfSuffix = true →
      extract_data
        { filename := fn, contentType := ct, byteSize := sz,
          pages := pre ++ Except.error e :: rest } = (500, none) := by
  have hmain := extract_abort e rest pre h
  refine ⟨hmain, ?_⟩
  intro fn ct sz hfn
  simp [extract_data, hfn, hmain]

/-- Witness for C7: a three-page document whose middle page fails aborts
with the wrapped cause, returning no records from pages one or three. -/
theorem c7_witness :
    extract_text_from_pdf [Except.ok "a", Except.error "boom", Except.ok "b"] =
      Except.error (pdfErrPre ++ "boom") := by
  have h : ∀ p ∈ [(Except.ok "a" : Except String String)], ∃ t, p = Except.ok t := by
    intro p hp
    rw [List.mem_singleton] at hp
    exact ⟨"a", hp⟩
  exact (c7_abort [Except.ok "a"] "boom" [Except.ok "b"] h).1

/-- Counterexample to C8: an upload of 11000000 bytes (over 10MB) with
declared MIME type "text/plain" but a filename ending in ".pdf" is not
rejected with 400 — the pipeline runs and answers 422 on its content —
so neither size nor MIME type is validated at the boundary. -/
theorem c8_counterexample :
    extract_data
      { filename := "scan.pdf", contentType := "text/plain",
        byteSize := 11000000, pages := [Except.ok "x"] } = (422, none) ∧
    10 * 1024 * 1024 < 11000000 ∧ ("text/plain" : String) ≠ "application/pdf" := by
  refine ⟨by decide, by decide, by decide⟩

/-- C8 amended: the only input validation at the boundary is the
filename-suffix check — a 400 is returned exactly when the filename does
not end in ".pdf", before invoking the pipeline, and the endpoint's
outcome is unchanged under any declared MIME type and any size. -/
theorem c8_amended (fn ct : String) (sz : Nat)
    (pgs : List (Except String String)) :
    (pyEndsWith fn pdfSuffix = false →
      extract_data
        { filename := fn, contentType := ct, byteSize := sz,
          pages := pgs } = (400, none)) ∧
    ((extract_data
        { filename := fn, contentType := ct, byteSize := sz,
          pages := pgs }).1 = 400 → pyEndsWith fn pdfSuffix = false) ∧
    extract_data { filename := fn, contentType := ct, byteSize := sz, pages := pgs } =
      extract_data
        { filename := fn, contentType := "application/pdf", byteSize := 0,
          pages := pgs } := by
  refine ⟨?_, ?_, rfl⟩
  · intro hf
    simp [extract_data, hf]
  · intro h4
    by_contra hne
    have hf : pyEndsWith fn pdfSuffix = true := by
      revert hne
      cases pyEndsWith fn pdfSuffix <;> simp
    unfold extract_data at h4
    rw [hf] at h4
    simp only [Bool.not_true, Bool.false_eq_true, if_false] at h4
    cases hE : extract_text_from_pdf pgs with
    | error e =>
      rw [hE] at h4
      simp at h4
    | ok rs =>
      rw [hE] at h4
      cases rs with
      | nil => simp at h4
      | cons a l => simp at h4

/-- Witness for the amended C8: an upload whose filename lacks the .pdf
suffix is answered 400 with no payload. -/
theorem c8_witness :
    extract_data
      { filename := "a.txt", contentType := "application/pdf",
        byteSize := 3, pages := [] } = (400, none) := by
  exact (c8_amended "a.txt" "application/pdf" 3 []).1 (by decide)

/-- C9: whenever the age pattern matches a line, the captured group is a
non-empty run of digits, so the subsequent `int` conversion always
succeeds (returning the digit run's value) and the age-extraction step
never raises. -/
theorem c9_age_parse (line cap : List Char) (h : matchAge line = some cap) :
    pyInt cap = some (digitsVal cap) ∧ cap ≠ [] ∧ cap.all dig = true := by
  obtain ⟨s, hs⟩ := scanSearch_some ageAttempt line cap h
  obtain ⟨hne, hall⟩ := ageAttempt_shape s cap hs
  refine ⟨?_, hne, hall⟩
  unfold pyInt
  rw [if_pos ⟨hne, hall⟩]

/-- Witness for C9: on the line "उम्र : 45" the capture is "45" and the
conversion succeeds. -/
theorem c9_witness :
    pyInt ['4', '5'] = some (digitsVal ['4', '5']) ∧
    matchAge "उम्र : 45".data = some ['4', '5'] := by
  have hm : matchAge "उम्र : 45".data = some ['4', '5'] := by decide
  exact ⟨(c9_age_parse _ _ hm).1, hm⟩

/-- C10: within one working record the fields name/surname, age,
house_number, spouse_or_parent_name and gender are last-match-wins — a
matching line overwrites the stored value regardless of the previous
record state (so of two matching lines in a block the later wins) — while
tag_number and the page-scoped section/polling fields are guarded by a
presence check and keep their first value until the record is flushed.
The chained `none` hypotheses mirror the source's `continue` order: a
pattern is only consulted when no earlier single-line pattern matched. -/
theorem c10_overwrite (txt : List Char) (r : Rec) (line : List Char) :
    (∀ cap, matchName line = some cap →
      (applyPatterns txt r line).name = some (strTrim cap) ∧
      (applyPatterns txt r line).surname = some (pySurname (strTrim cap))) ∧
    (matchName line = none → ∀ d, matchAge line = some d →
      (applyPatterns txt r line).age = some (digitsVal d)) ∧
    (matchName line = none → matchAge line = none →
      ∀ d, matchHouse line = some d →
      (applyPatterns txt r line).house_number = some (strTrim d)) ∧
    (matchName line = none → matchAge line = none → matchHouse line = none →
      ∀ cap, matchSpouse line = some cap →
      (applyPatterns txt r line).spouse_or_parent_name = some (strTrim cap)) ∧
    (matchName line = none → matchAge line = none → matchHouse line = none →
      matchSpouse line = none → ∀ g, matchGender line = some g →
      (applyPatterns txt r line).gender = some (String.mk g)) ∧
    (∀ t, r.tag_number = some t → (applyPatterns txt r line).tag_number = some t) ∧
    (∀ s, r.section_number = some s →
      (applyPatterns txt r line).section_number = some s ∧
      (applyPatterns txt r line).section_name = r.section_name) ∧
    (∀ s, r.polling_station_number = some s →
      (applyPatterns txt r line).polling_station_number = some s ∧
      (applyPatterns txt r line).polling_station_name = r.polling_station_name) := by
  refine ⟨?_, ?_, ?_, ?_, ?_, ?_, ?_, ?_⟩
  · intro cap hm
    unfold applyPatterns applyLine
    rw [hm]
    exact ⟨rfl, rfl⟩
  · intro h0 d hm
    unfold applyPatterns applyLine
    rw [h0, hm]
  · intro h0 h1 d hm
    unfold applyPatterns applyLine
    rw [h0, h1, hm]
  · intro h0 h1 h2 cap hm
    unfold applyPatterns applyLine
    rw [h0, h1, h2, hm]
  · intro h0 h1 h2 h3 g hm
    unfold applyPatterns applyLine
    rw [h0, h1, h2, h3, hm]
  · intro t ht
    have h1 : (applyPolling txt (applySection txt r)).tag_number = some t := by
      rw [(applyPolling_others txt (applySection txt r)).2.2.2.2.2.2.2.2,
          (applySection_others txt r).2.2.2.2.2.2.2.2]
      exact ht
    exact applyLine_keepsTag (applyPolling txt (applySection txt r)) line t h1
  · intro s hs
    have hA : applySection txt r = r := by
      unfold applySection
      rw [hs]
      cases sectionValsOf txt <;> rfl
    constructor
    · rw [applyPatterns,
        (applyLine_pageFields (applyPolling txt (applySection txt r)) line).1,
        (applyPolling_others txt (applySection txt r)).2.2.2.2.2.2.1, hA, hs]
    · rw [applyPatterns,
        (applyLine_pageFields (applyPolling txt (applySection txt r)) line).2.1,
        (applyPolling_others txt (applySection txt r)).2.2.2.2.2.2.2.1, hA]
  · intro s hs
    have hPnum : (applySection txt r).polling_station_number = some s := by
      rw [(applySection_others txt r).2.2.2.2.2.2.1]
      exact hs
    have hB : applyPolling txt (applySection txt r) = applySection txt r := by
      unfold applyPolling
      rw [hPnum]
      cases pollingValsOf txt <;> rfl
    constructor
    · rw [applyPatterns,
        (applyLine_pageFields (applyPolling txt (applySection txt r)) line).2.2.1,
        hB, hPnum]
    · rw [applyPatterns,
        (applyLine_pageFields (applyPolling txt (applySection txt r)) line).2.2.2,
        hB, (applySection_others txt r).2.2.2.2.2.2.2.1]

/-- Witness for C10: two name lines in sequence — the later line's value
overwrites the earlier one in the working record. -/
theorem c10_witness :
    (applyPatterns [] (applyPatterns [] emptyRec "निर्वाचक का नाम : अ ब".data)
      "निर्वाचक का नाम : ग घ".data).name = some "ग घ" := by
  have hm : matchName "निर्वाचक का नाम : ग घ".data = some "ग घ".data := by decide
  have h := ((c10_overwrite [] (applyPatterns [] emptyRec "निर्वाचक का नाम : अ ब".data)
      "निर्वाचक का नाम : ग घ".data).1 _ hm).1
  rw [h]
  decide

end OcrSpec
